import Mathlib

/-!
# Captcha HTTP handler (`server.go`)

A shallow embedding of `captchaHandler.serveFastHTTP` and
`captchaHandler.ServeFastHTTP`, together with the library routines they call
(`path.Split`, `path.Ext`, `path.Base`, `strings.ToLower`, and the parts of
`fasthttp.RequestCtx` that the handler touches).

The renderers `WriteImage`, `WriteAudio` and the hook `Reload` live outside
`server.go`; they are parameters of the model (`Env`), threaded through an
explicit store and recorded in a chronological call log.
-/

namespace Captcha

/-! ## Strings -/

/-- A Go string is a finite sequence of bytes.  A byte is a natural number; the
only arithmetic the modelled code performs on a byte is `c + 32` for
`65 ≤ c ≤ 90`, which cannot overflow. -/
abbrev GoString := List Nat

/-- The bytes of an ASCII literal. -/
def ascii (s : String) : GoString := s.toList.map Char.toNat

/-- The byte `'/'`. -/
def slash : Nat := 47

/-- The byte `'.'`. -/
def dot : Nat := 46

/-- Loop of `bytealg.LastIndexByteString`: `for i := len(s)-1; i >= 0; i--`.
The argument is `i + 1`; `0` means the loop has run off the front. -/
def lastIndexByteLoop (s : GoString) (c : Nat) : Nat → Int
  | 0 => -1
  | i + 1 => if s.getD i 0 = c then (i : Int) else lastIndexByteLoop s c i

/-- Go `bytealg.LastIndexByteString(s, c)`: index of the last `c`, or `-1`. -/
def LastIndexByte (s : GoString) (c : Nat) : Int :=
  lastIndexByteLoop s c s.length

/-- Go `path.Split`: `i := LastIndex(path, "/"); return path[:i+1], path[i+1:]`. -/
def Split (path : GoString) : GoString × GoString :=
  let i := LastIndexByte path slash
  (path.take (i + 1).toNat, path.drop (i + 1).toNat)

/-- Loop of `path.Ext`:
`for i := len(path)-1; i >= 0 && path[i] != '/'; i-- { if path[i] == '.' { return path[i:] } }`.
The argument is `i + 1`. -/
def extLoop (path : GoString) : Nat → GoString
  | 0 => []
  | i + 1 =>
    if path.getD i 0 = slash then []
    else if path.getD i 0 = dot then path.drop i
    else extLoop path i

/-- Go `path.Ext`: the suffix beginning at the final dot of the final
slash-separated element, or the empty string. -/
def Ext (path : GoString) : GoString := extLoop path path.length

/-- Loop of `path.Base` that strips trailing slashes:
`for len(path) > 0 && path[len(path)-1] == '/' { path = path[0:len(path)-1] }`.
The argument is the current length of the slice. -/
def stripTrailingSlashes (path : GoString) : Nat → GoString
  | 0 => []
  | n + 1 =>
    if path.getD n 0 = slash then stripTrailingSlashes path n
    else path.take (n + 1)

/-- Go `path.Base`. -/
def Base (path : GoString) : GoString :=
  if path = [] then ascii "."
  else
    let path := stripTrailingSlashes path path.length
    let i := LastIndexByte path slash
    let path := if 0 ≤ i then path.drop (i + 1).toNat else path
    if path = [] then ascii "/" else path

/-- The id that `ServeFastHTTP` cuts out of a file name: `file[:len(file)-len(ext)]`. -/
def idOf (file : GoString) : GoString := file.take (file.length - (Ext file).length)

/-- One byte of the ASCII branch of `strings.ToLower`:
`if 'A' <= c && c <= 'Z' { c += 'a' - 'A' }`. -/
def lowerByte (c : Nat) : Nat := if 65 ≤ c ∧ c ≤ 90 then c + 32 else c

/-- Go `strings.ToLower`.  A string made of ASCII bytes only (all `< 0x80`) is
returned unchanged when it has no upper-case letter and otherwise has each
upper-case letter replaced; any other string goes through
`Map(unicode.ToLower, s)`, supplied as `unicodeLower`. -/
def ToLower (unicodeLower : GoString → GoString) (s : GoString) : GoString :=
  if s.all (fun c => decide (c < 128)) then
    if s.any (fun c => decide (65 ≤ c ∧ c ≤ 90)) then s.map lowerByte else s
  else unicodeLower s

/-! ## The request context -/

/-- Modelled from the spec: the package value `ErrNotFound`, declared outside
`server.go`, is the one recognised not-found condition; `other` stands for any
other `error` value a renderer may return. -/
inductive GoError
  | ErrNotFound
  | other (msg : GoString)
  deriving DecidableEq, Repr

/-- Response headers, as key/value pairs with at most one entry per key. -/
abbrev Header := List (GoString × GoString)

/-- The call `Header.Set(key, value)`: replaces the value stored under `key`. -/
def Header.Set (h : Header) (key value : GoString) : Header :=
  (key, value) :: h.filter (fun kv => decide (kv.1 ≠ key))

/-- The call `Header.Peek(key)`: the value stored under `key`, if any. -/
def Header.Peek (h : Header) (key : GoString) : Option GoString :=
  (h.find? (fun kv => decide (kv.1 = key))).map Prod.snd

/-- The part of `fasthttp.Response` that the handler writes. `statusCode = 0`
is the state of a fresh response, before any `SetStatusCode`. -/
structure Response where
  header : Header
  statusCode : Nat
  body : GoString
  deriving DecidableEq, Repr

/-- The part of `fasthttp.RequestCtx` that the handler uses: the request path
`string(ctx.URI().Path())`, the accessor `ctx.FormValue` (which yields the
empty slice for a key without a value), and the response. -/
structure RequestCtx where
  path : GoString
  FormValue : GoString → GoString
  resp : Response

/-- Constant `fasthttp.StatusOK`. -/
def StatusOK : Nat := 200

/-- Constant `fasthttp.StatusNotFound`. -/
def StatusNotFound : Nat := 404

/-- The call `ctx.Response.Header.Set(key, value)`. -/
def RequestCtx.SetHeader (ctx : RequestCtx) (key value : GoString) : RequestCtx :=
  { ctx with resp := { ctx.resp with header := ctx.resp.header.Set key value } }

/-- The call `ctx.SetStatusCode(code)`. -/
def RequestCtx.SetStatusCode (ctx : RequestCtx) (code : Nat) : RequestCtx :=
  { ctx with resp := { ctx.resp with statusCode := code } }

/-- The call `ctx.SetBody(body)`. -/
def RequestCtx.SetBody (ctx : RequestCtx) (body : GoString) : RequestCtx :=
  { ctx with resp := { ctx.resp with body := body } }

/-- The call `ctx.NotFound()` of fasthttp: `ctx.Response.Reset()`, which drops
the headers set so far, then `SetStatusCode(StatusNotFound)` and
`SetBodyString("404 Page not found")`. -/
def RequestCtx.NotFound (ctx : RequestCtx) : RequestCtx :=
  { ctx with resp :=
      { header := []
        statusCode := StatusNotFound
        body := ascii "404 Page not found" } }

/-! ## The collaborators outside `server.go` -/

/-- One call made by the handler to a collaborator. -/
inductive Call
  | Reload (id : GoString)
  | WriteImage (id : GoString) (width height : Int)
  | WriteAudio (id lang : GoString)
  deriving DecidableEq, Repr

/-- The collaborators, over a store of type `σ`.  A renderer returns the bytes
it wrote to its writer and its `error` result. -/
structure Env (σ : Type) where
  Reload : GoString → σ → σ
  WriteImage : GoString → Int → Int → σ → (GoString × Option GoError) × σ
  WriteAudio : GoString → GoString → σ → (GoString × Option GoError) × σ
  unicodeLower : GoString → GoString

/-- The world outside the request context: the captcha store and the log of
calls made so far, oldest first. -/
structure World (σ : Type) where
  store : σ
  calls : List Call

/-! ## `server.go` -/

/-- The handler: `type captchaHandler struct { imgWidth, imgHeight int }`. -/
structure captchaHandler where
  imgWidth : Int
  imgHeight : Int
  deriving DecidableEq, Repr

/-- Go `func Server(imgWidth, imgHeight int) *captchaHandler`. -/
def Server (imgWidth imgHeight : Int) : captchaHandler := ⟨imgWidth, imgHeight⟩

/-- The tail of `serveFastHTTP` after the `switch`: the `download` override,
`SetStatusCode(StatusOK)`, `SetBody(content.Bytes())`, `return nil`. -/
def finishOK (ctx : RequestCtx) (content : GoString) (download : Bool) : RequestCtx :=
  let ctx := if download then ctx.SetHeader (ascii "Content-Type") (ascii "application/octet-stream") else ctx
  let ctx := ctx.SetStatusCode StatusOK
  ctx.SetBody content

/-- The first three statements of `serveFastHTTP`: the cache-disabling headers. -/
def setNoCache (ctx : RequestCtx) : RequestCtx :=
  let ctx := ctx.SetHeader (ascii "Cache-Control") (ascii "no-cache, no-store, must-revalidate")
  let ctx := ctx.SetHeader (ascii "Pragma") (ascii "no-cache")
  ctx.SetHeader (ascii "Expires") (ascii "0")

/-- Go `func (h *captchaHandler) serveFastHTTP(ctx, id, ext, lang, download) error`.
The `error` results of the renderers are discarded (`_ = WriteImage(...)`). -/
def serveFastHTTP {σ : Type} (env : Env σ) (h : captchaHandler) (ctx : RequestCtx) (w : World σ)
    (id ext lang : GoString) (download : Bool) : Option GoError × RequestCtx × World σ :=
  let ctx := setNoCache ctx
  if ext = ascii ".png" then
    let ctx := ctx.SetHeader (ascii "Content-Type") (ascii "image/png")
    let r := env.WriteImage id h.imgWidth h.imgHeight w.store
    let w := { store := r.2, calls := w.calls ++ [Call.WriteImage id h.imgWidth h.imgHeight] }
    (none, finishOK ctx r.1.1 download, w)
  else if ext = ascii ".wav" then
    let ctx := ctx.SetHeader (ascii "Content-Type") (ascii "audio/x-wav")
    let r := env.WriteAudio id lang w.store
    let w := { store := r.2, calls := w.calls ++ [Call.WriteAudio id lang] }
    (none, finishOK ctx r.1.1 download, w)
  else
    (some GoError.ErrNotFound, ctx, w)

/-- The statement `if len(ctx.FormValue("reload")) > 0 { Reload(id) }`. -/
def reloadStep {σ : Type} (env : Env σ) (ctx : RequestCtx) (id : GoString) (w : World σ) :
    World σ :=
  if 0 < (ctx.FormValue (ascii "reload")).length then
    { store := env.Reload id w.store, calls := w.calls ++ [Call.Reload id] }
  else w

/-- Go `func (h *captchaHandler) ServeFastHTTP(ctx *fasthttp.RequestCtx)`. -/
def ServeFastHTTP {σ : Type} (env : Env σ) (h : captchaHandler) (ctx : RequestCtx) (w : World σ) :
    RequestCtx × World σ :=
  let dir := (Split ctx.path).1
  let file := (Split ctx.path).2
  let ext := Ext file
  let id := file.take (file.length - ext.length)
  if ext = [] ∨ id = [] then
    (ctx.NotFound, w)
  else
    let w := reloadStep env ctx id w
    let lang := ToLower env.unicodeLower (ctx.FormValue (ascii "lang"))
    let download := decide (Base dir = ascii "download")
    let r := serveFastHTTP env h ctx w id ext lang download
    if r.1 = some GoError.ErrNotFound then (r.2.1.NotFound, r.2.2) else (r.2.1, r.2.2)

/-! ## A concrete environment for evaluation -/

/-- A test environment: the store counts reloads, the image renderer writes
the id followed by the store value and the two dimensions, the audio renderer
fails with `ErrNotFound` after writing nothing. -/
def testEnv : Env Nat where
  Reload := fun _ s => s + 1
  WriteImage := fun id wd ht s => ((id ++ [s, wd.toNat, ht.toNat], none), s)
  WriteAudio := fun _ _ s => (([], some GoError.ErrNotFound), s)
  unicodeLower := fun s => s

/-- A request for `path` with the given `reload` and `lang` values, on a fresh
response. -/
def mkCtx (path reload lang : String) : RequestCtx where
  path := ascii path
  FormValue := fun k =>
    if k = ascii "reload" then ascii reload
    else if k = ascii "lang" then ascii lang else []
  resp := { header := [], statusCode := 0, body := [] }

/-- The initial world of the test environment. -/
def w0 : World Nat := { store := 0, calls := [] }

/-! ## Lemmas on the path routines -/

theorem lastIndexByteLoop_append (a b : GoString) (c : Nat) :
    ∀ n, n ≤ a.length → lastIndexByteLoop (a ++ b) c n = lastIndexByteLoop a c n
  | 0, _ => rfl
  | n + 1, h => by
    simp only [lastIndexByteLoop]
    rw [List.getD_append _ _ _ _ (by omega), lastIndexByteLoop_append a b c n (by omega)]

theorem lastIndexByteLoop_skip (a b : GoString) (c : Nat) (hb : c ∉ b) :
    ∀ k, k ≤ b.length →
      lastIndexByteLoop (a ++ b) c (a.length + k) = lastIndexByteLoop (a ++ b) c a.length
  | 0, _ => rfl
  | k + 1, h => by
    have hk : k < b.length := by omega
    have hne : (a ++ b).getD (a.length + k) 0 ≠ c := by
      rw [List.getD_append_right _ _ _ _ (by omega)]
      simp only [Nat.add_sub_cancel_left]
      rw [List.getD_eq_getElem _ _ hk]
      intro he
      exact hb (he ▸ List.getElem_mem hk)
    rw [← Nat.add_assoc]
    simp only [lastIndexByteLoop, if_neg hne]
    exact lastIndexByteLoop_skip a b c hb k (by omega)

theorem LastIndexByte_not_mem (s : GoString) (c : Nat) (hs : c ∉ s) :
    LastIndexByte s c = -1 := by
  have h := lastIndexByteLoop_skip [] s c hs s.length (Nat.le_refl _)
  simpa [LastIndexByte, lastIndexByteLoop] using h

theorem LastIndexByte_last (a b : GoString) (c : Nat) (hb : c ∉ b) :
    LastIndexByte (a ++ c :: b) c = (a.length : Int) := by
  have e : a ++ c :: b = (a ++ [c]) ++ b := by simp
  unfold LastIndexByte
  have hl : (a ++ c :: b).length = (a ++ [c]).length + b.length := by simp; omega
  rw [hl, e, lastIndexByteLoop_skip (a ++ [c]) b c hb b.length (Nat.le_refl _),
    lastIndexByteLoop_append (a ++ [c]) b c _ (Nat.le_refl _)]
  simp [lastIndexByteLoop]

theorem exists_last_occurrence (c : Nat) :
    ∀ s : GoString, c ∈ s → ∃ a b, s = a ++ c :: b ∧ c ∉ b
  | [], h => by simp at h
  | x :: s, h => by
    by_cases hs : c ∈ s
    · obtain ⟨a, b, rfl, hb⟩ := exists_last_occurrence c s hs
      exact ⟨x :: a, b, by simp, hb⟩
    · have hx : c = x := by
        rcases List.mem_cons.1 h with h | h
        · exact h
        · exact absurd h hs
      exact ⟨[], s, by simp [hx], hs⟩

theorem Split_append (d f : GoString) (hd : d = [] ∨ ∃ a, d = a ++ [slash]) (hf : slash ∉ f) :
    Split (d ++ f) = (d, f) := by
  rcases hd with rfl | ⟨a, rfl⟩
  · simp [Split, LastIndexByte_not_mem f slash hf]
  · have e : a ++ [slash] ++ f = a ++ slash :: f := by simp
    have h1 : ((a.length : Int) + 1).toNat = (a ++ [slash]).length := by simp
    simp only [Split, e, LastIndexByte_last a f slash hf, h1]
    rw [← e, List.take_left, List.drop_left]

theorem Split_spec (p : GoString) :
    (Split p).1 ++ (Split p).2 = p ∧ slash ∉ (Split p).2 ∧
      ((Split p).1 = [] ∨ ∃ a, (Split p).1 = a ++ [slash]) := by
  by_cases h : slash ∈ p
  · obtain ⟨a, b, rfl, hb⟩ := exists_last_occurrence slash p h
    have e : a ++ slash :: b = (a ++ [slash]) ++ b := by simp
    rw [e, Split_append (a ++ [slash]) b (Or.inr ⟨a, rfl⟩) hb]
    exact ⟨rfl, hb, Or.inr ⟨a, rfl⟩⟩
  · have := Split_append [] p (Or.inl rfl) h
    simp only [List.nil_append] at this
    rw [this]
    exact ⟨rfl, h, Or.inl rfl⟩

theorem extLoop_skip (a b : GoString) (hs : slash ∉ b) (hd : dot ∉ b) :
    ∀ k, k ≤ b.length → extLoop (a ++ b) (a.length + k) = extLoop (a ++ b) a.length
  | 0, _ => rfl
  | k + 1, h => by
    have hk : k < b.length := by omega
    have hget : (a ++ b).getD (a.length + k) 0 = b[k] := by
      rw [List.getD_append_right _ _ _ _ (by omega)]
      simp only [Nat.add_sub_cancel_left]
      exact List.getD_eq_getElem _ _ hk
    have h1 : (a ++ b).getD (a.length + k) 0 ≠ slash := by
      rw [hget]; intro he; exact hs (he ▸ List.getElem_mem hk)
    have h2 : (a ++ b).getD (a.length + k) 0 ≠ dot := by
      rw [hget]; intro he; exact hd (he ▸ List.getElem_mem hk)
    rw [← Nat.add_assoc]
    simp only [extLoop, if_neg h1, if_neg h2]
    exact extLoop_skip a b hs hd k (by omega)

theorem Ext_no_dot (f : GoString) (hs : slash ∉ f) (hd : dot ∉ f) : Ext f = [] := by
  have h := extLoop_skip [] f hs hd f.length (Nat.le_refl _)
  simpa [Ext, extLoop] using h

theorem Ext_last_dot (a b : GoString) (hs : slash ∉ b) (hd : dot ∉ b) :
    Ext (a ++ dot :: b) = dot :: b := by
  have e : a ++ dot :: b = (a ++ [dot]) ++ b := by simp
  have hl : (a ++ dot :: b).length = (a ++ [dot]).length + b.length := by simp; omega
  unfold Ext
  rw [hl, e, extLoop_skip (a ++ [dot]) b hs hd b.length (Nat.le_refl _)]
  have hlen : (a ++ [dot]).length = a.length + 1 := by simp
  have hget : (a ++ [dot] ++ b).getD a.length 0 = dot := by
    rw [List.getD_append _ _ _ _ (by simp), List.getD_append_right _ _ _ _ (Nat.le_refl _)]
    simp
  have hne : dot ≠ slash := by decide
  rw [hlen]
  simp only [extLoop, hget, if_neg hne, if_true]
  rw [List.append_assoc, List.drop_left]
  rfl

theorem idOf_last_dot (a b : GoString) (hs : slash ∉ b) (hd : dot ∉ b) :
    idOf (a ++ dot :: b) = a := by
  unfold idOf
  rw [Ext_last_dot a b hs hd]
  have : (a ++ dot :: b).length - (dot :: b).length = a.length := by simp
  rw [this, List.take_left]

theorem not_mem_png : slash ∉ ascii "png" ∧ dot ∉ ascii "png" := by decide

theorem not_mem_wav : slash ∉ ascii "wav" ∧ dot ∉ ascii "wav" := by decide

theorem Ext_png (id : GoString) : Ext (id ++ ascii ".png") = ascii ".png" :=
  Ext_last_dot id (ascii "png") not_mem_png.1 not_mem_png.2

theorem Ext_wav (id : GoString) : Ext (id ++ ascii ".wav") = ascii ".wav" :=
  Ext_last_dot id (ascii "wav") not_mem_wav.1 not_mem_wav.2

theorem idOf_png (id : GoString) : idOf (id ++ ascii ".png") = id :=
  idOf_last_dot id (ascii "png") not_mem_png.1 not_mem_png.2

theorem idOf_wav (id : GoString) : idOf (id ++ ascii ".wav") = id :=
  idOf_last_dot id (ascii "wav") not_mem_wav.1 not_mem_wav.2

/-- For a file name without a slash, the extension is a suffix and the id is
the matching prefix. -/
theorem idOf_append_Ext (f : GoString) (hs : slash ∉ f) : idOf f ++ Ext f = f := by
  by_cases hd : dot ∈ f
  · obtain ⟨a, b, rfl, hb⟩ := exists_last_occurrence dot f hd
    have hsb : slash ∉ b := fun h => hs (by simp [h])
    rw [idOf_last_dot a b hsb hb, Ext_last_dot a b hsb hb]
  · unfold idOf
    rw [Ext_no_dot f hs hd]
    simp

/-- For a file name without a slash: the decoder rejects it exactly when it has
no dot at all, or its only dot is its first byte. -/
theorem invalid_iff (f : GoString) (hs : slash ∉ f) :
    (Ext f = [] ∨ idOf f = []) ↔ (dot ∉ f ∨ ∃ r, f = dot :: r ∧ dot ∉ r) := by
  by_cases hd : dot ∈ f
  · obtain ⟨a, b, rfl, hb⟩ := exists_last_occurrence dot f hd
    have hsb : slash ∉ b := fun h => hs (by simp [h])
    rw [idOf_last_dot a b hsb hb, Ext_last_dot a b hsb hb]
    constructor
    · rintro (h | rfl)
      · simp at h
      · exact Or.inr ⟨b, rfl, hb⟩
    · rintro (h | ⟨r, hr, hr2⟩)
      · exact absurd hd h
      · right
        cases a with
        | nil => rfl
        | cons x a =>
          exfalso
          simp only [List.cons_append, List.cons.injEq] at hr
          apply hr2
          rw [← hr.2]
          simp
  · constructor
    · intro _; exact Or.inl hd
    · intro _; exact Or.inl (Ext_no_dot f hs hd)

/-! ## Lemmas on headers and on the handler -/

theorem Peek_Set_same (h : Header) (k v : GoString) : (h.Set k v).Peek k = some v := by
  simp [Header.Set, Header.Peek]

theorem find_filter_other (k k' : GoString) (hk : k ≠ k') : ∀ xs : Header,
    (xs.filter (fun kv => decide (kv.1 ≠ k))).find? (fun kv => decide (kv.1 = k')) =
      xs.find? (fun kv => decide (kv.1 = k'))
  | [] => rfl
  | x :: xs => by
    have ih := find_filter_other k k' hk xs
    by_cases hx : x.1 = k
    · have hx2 : ¬ x.1 = k' := fun e => hk (hx.symm.trans e)
      rw [List.filter_cons_of_neg (by simpa using hx),
        List.find?_cons_of_neg _ (by simpa using hx2)]
      exact ih
    · rw [List.filter_cons_of_pos (by simpa using hx)]
      by_cases hx2 : x.1 = k'
      · rw [List.find?_cons_of_pos _ (by simpa using hx2),
          List.find?_cons_of_pos _ (by simpa using hx2)]
      · rw [List.find?_cons_of_neg _ (by simpa using hx2),
          List.find?_cons_of_neg _ (by simpa using hx2)]
        exact ih

theorem Peek_Set_other (h : Header) (k v k' : GoString) (hk : k ≠ k') :
    (h.Set k v).Peek k' = h.Peek k' := by
  unfold Header.Set Header.Peek
  rw [List.find?_cons_of_neg _ (by simpa using hk), find_filter_other k k' hk h]

theorem serveFastHTTP_png {σ : Type} (env : Env σ) (h : captchaHandler) (ctx : RequestCtx)
    (w : World σ) (id lang : GoString) (download : Bool) :
    serveFastHTTP env h ctx w id (ascii ".png") lang download =
      (none,
       finishOK ((setNoCache ctx).SetHeader (ascii "Content-Type") (ascii "image/png"))
         (env.WriteImage id h.imgWidth h.imgHeight w.store).1.1 download,
       { store := (env.WriteImage id h.imgWidth h.imgHeight w.store).2,
         calls := w.calls ++ [Call.WriteImage id h.imgWidth h.imgHeight] }) := by
  simp [serveFastHTTP]

theorem serveFastHTTP_wav {σ : Type} (env : Env σ) (h : captchaHandler) (ctx : RequestCtx)
    (w : World σ) (id lang : GoString) (download : Bool) :
    serveFastHTTP env h ctx w id (ascii ".wav") lang download =
      (none,
       finishOK ((setNoCache ctx).SetHeader (ascii "Content-Type") (ascii "audio/x-wav"))
         (env.WriteAudio id lang w.store).1.1 download,
       { store := (env.WriteAudio id lang w.store).2,
         calls := w.calls ++ [Call.WriteAudio id lang] }) := by
  have hne : ascii ".wav" ≠ ascii ".png" := by decide
  simp [serveFastHTTP, hne]

theorem serveFastHTTP_other {σ : Type} (env : Env σ) (h : captchaHandler) (ctx : RequestCtx)
    (w : World σ) (id ext lang : GoString) (download : Bool)
    (h1 : ext ≠ ascii ".png") (h2 : ext ≠ ascii ".wav") :
    serveFastHTTP env h ctx w id ext lang download =
      (some GoError.ErrNotFound, setNoCache ctx, w) := by
  simp [serveFastHTTP, h1, h2]

theorem ServeFastHTTP_invalid {σ : Type} (env : Env σ) (h : captchaHandler) (ctx : RequestCtx)
    (w : World σ) (hinv : Ext (Split ctx.path).2 = [] ∨ idOf (Split ctx.path).2 = []) :
    ServeFastHTTP env h ctx w = (ctx.NotFound, w) := by
  unfold idOf at hinv
  simp only [ServeFastHTTP, if_pos hinv]

theorem ServeFastHTTP_valid {σ : Type} (env : Env σ) (h : captchaHandler) (ctx : RequestCtx)
    (w : World σ) (he : Ext (Split ctx.path).2 ≠ []) (hi : idOf (Split ctx.path).2 ≠ []) :
    ServeFastHTTP env h ctx w =
      (if (serveFastHTTP env h ctx (reloadStep env ctx (idOf (Split ctx.path).2) w)
            (idOf (Split ctx.path).2) (Ext (Split ctx.path).2)
            (ToLower env.unicodeLower (ctx.FormValue (ascii "lang")))
            (decide (Base (Split ctx.path).1 = ascii "download"))).1 = some GoError.ErrNotFound
       then
         ((serveFastHTTP env h ctx (reloadStep env ctx (idOf (Split ctx.path).2) w)
            (idOf (Split ctx.path).2) (Ext (Split ctx.path).2)
            (ToLower env.unicodeLower (ctx.FormValue (ascii "lang")))
            (decide (Base (Split ctx.path).1 = ascii "download"))).2.1.NotFound,
          (serveFastHTTP env h ctx (reloadStep env ctx (idOf (Split ctx.path).2) w)
            (idOf (Split ctx.path).2) (Ext (Split ctx.path).2)
            (ToLower env.unicodeLower (ctx.FormValue (ascii "lang")))
            (decide (Base (Split ctx.path).1 = ascii "download"))).2.2)
       else
         (serveFastHTTP env h ctx (reloadStep env ctx (idOf (Split ctx.path).2) w)
            (idOf (Split ctx.path).2) (Ext (Split ctx.path).2)
            (ToLower env.unicodeLower (ctx.FormValue (ascii "lang")))
            (decide (Base (Split ctx.path).1 = ascii "download"))).2) := by
  have hinv : ¬ (Ext (Split ctx.path).2 = [] ∨ idOf (Split ctx.path).2 = []) := by
    rintro (h | h)
    · exact he h
    · exact hi h
  unfold idOf at hinv ⊢
  simp only [ServeFastHTTP, if_neg hinv]

theorem ServeFastHTTP_png {σ : Type} (env : Env σ) (h : captchaHandler) (ctx : RequestCtx)
    (w : World σ) (he : Ext (Split ctx.path).2 = ascii ".png")
    (hi : idOf (Split ctx.path).2 ≠ []) :
    ServeFastHTTP env h ctx w =
      (serveFastHTTP env h ctx (reloadStep env ctx (idOf (Split ctx.path).2) w)
        (idOf (Split ctx.path).2) (ascii ".png")
        (ToLower env.unicodeLower (ctx.FormValue (ascii "lang")))
        (decide (Base (Split ctx.path).1 = ascii "download"))).2 := by
  have hne : Ext (Split ctx.path).2 ≠ [] := by rw [he]; decide
  rw [ServeFastHTTP_valid env h ctx w hne hi, he, serveFastHTTP_png]
  simp

theorem ServeFastHTTP_wav {σ : Type} (env : Env σ) (h : captchaHandler) (ctx : RequestCtx)
    (w : World σ) (he : Ext (Split ctx.path).2 = ascii ".wav")
    (hi : idOf (Split ctx.path).2 ≠ []) :
    ServeFastHTTP env h ctx w =
      (serveFastHTTP env h ctx (reloadStep env ctx (idOf (Split ctx.path).2) w)
        (idOf (Split ctx.path).2) (ascii ".wav")
        (ToLower env.unicodeLower (ctx.FormValue (ascii "lang")))
        (decide (Base (Split ctx.path).1 = ascii "download"))).2 := by
  have hne : Ext (Split ctx.path).2 ≠ [] := by rw [he]; decide
  rw [ServeFastHTTP_valid env h ctx w hne hi, he, serveFastHTTP_wav]
  simp

theorem ServeFastHTTP_other {σ : Type} (env : Env σ) (h : captchaHandler) (ctx : RequestCtx)
    (w : World σ) (he : Ext (Split ctx.path).2 ≠ []) (hi : idOf (Split ctx.path).2 ≠ [])
    (h1 : Ext (Split ctx.path).2 ≠ ascii ".png") (h2 : Ext (Split ctx.path).2 ≠ ascii ".wav") :
    ServeFastHTTP env h ctx w =
      ((setNoCache ctx).NotFound, reloadStep env ctx (idOf (Split ctx.path).2) w) := by
  rw [ServeFastHTTP_valid env h ctx w he hi, serveFastHTTP_other _ _ _ _ _ _ _ _ h1 h2]
  simp

theorem finishOK_status (ctx : RequestCtx) (c : GoString) (d : Bool) :
    (finishOK ctx c d).resp.statusCode = 200 := by
  cases d <;> rfl

theorem finishOK_body (ctx : RequestCtx) (c : GoString) (d : Bool) :
    (finishOK ctx c d).resp.body = c := by
  cases d <;> rfl

/-- The status code as a function of the last path segment alone. -/
theorem ServeFastHTTP_status {σ : Type} (env : Env σ) (h : captchaHandler) (ctx : RequestCtx)
    (w : World σ) :
    (ServeFastHTTP env h ctx w).1.resp.statusCode =
      if idOf (Split ctx.path).2 ≠ [] ∧
          (Ext (Split ctx.path).2 = ascii ".png" ∨ Ext (Split ctx.path).2 = ascii ".wav")
      then 200 else 404 := by
  by_cases hi : idOf (Split ctx.path).2 = []
  · rw [ServeFastHTTP_invalid env h ctx w (Or.inr hi)]
    simp [hi, RequestCtx.NotFound, StatusNotFound]
  · by_cases h1 : Ext (Split ctx.path).2 = ascii ".png"
    · rw [ServeFastHTTP_png env h ctx w h1 hi, serveFastHTTP_png]
      simp [hi, h1, finishOK_status]
    · by_cases h2 : Ext (Split ctx.path).2 = ascii ".wav"
      · rw [ServeFastHTTP_wav env h ctx w h2 hi, serveFastHTTP_wav]
        simp [hi, h2, finishOK_status]
      · by_cases he : Ext (Split ctx.path).2 = []
        · rw [ServeFastHTTP_invalid env h ctx w (Or.inl he)]
          simp [h1, h2, RequestCtx.NotFound, StatusNotFound]
        · rw [ServeFastHTTP_other env h ctx w he hi h1 h2]
          simp [h1, h2, RequestCtx.NotFound, StatusNotFound]

/-- A slash-free file name decodes to a non-empty id and a recognised extension
exactly when it is a non-empty id followed by `.png` or `.wav`. -/
theorem recognised_iff (f : GoString) (hs : slash ∉ f) :
    (idOf f ≠ [] ∧ (Ext f = ascii ".png" ∨ Ext f = ascii ".wav")) ↔
      ∃ id, id ≠ [] ∧ (f = id ++ ascii ".png" ∨ f = id ++ ascii ".wav") := by
  constructor
  · rintro ⟨hi, he⟩
    refine ⟨idOf f, hi, ?_⟩
    have h := idOf_append_Ext f hs
    rcases he with he | he
    · left; rw [← he]; exact h.symm
    · right; rw [← he]; exact h.symm
  · rintro ⟨id, hid, rfl | rfl⟩
    · rw [idOf_png, Ext_png]; exact ⟨hid, Or.inl rfl⟩
    · rw [idOf_wav, Ext_wav]; exact ⟨hid, Or.inr rfl⟩

theorem reloadStep_calls {σ : Type} (env : Env σ) (ctx : RequestCtx) (id : GoString)
    (w : World σ) :
    (reloadStep env ctx id w).calls =
      w.calls ++ (if ctx.FormValue (ascii "reload") ≠ [] then [Call.Reload id] else []) := by
  unfold reloadStep
  by_cases hr : ctx.FormValue (ascii "reload") = []
  · simp [hr]
  · have hpos : 0 < (ctx.FormValue (ascii "reload")).length := List.length_pos.2 hr
    simp [hr, hpos]

theorem reloadStep_store {σ : Type} (env : Env σ) (ctx : RequestCtx) (id : GoString)
    (w : World σ) :
    (reloadStep env ctx id w).store =
      if ctx.FormValue (ascii "reload") ≠ [] then env.Reload id w.store else w.store := by
  unfold reloadStep
  by_cases hr : ctx.FormValue (ascii "reload") = []
  · simp [hr]
  · have hpos : 0 < (ctx.FormValue (ascii "reload")).length := List.length_pos.2 hr
    simp [hr, hpos]

/-- The calls made by `ServeFastHTTP` on a request that passes the guard. -/
theorem ServeFastHTTP_calls {σ : Type} (env : Env σ) (h : captchaHandler) (ctx : RequestCtx)
    (w : World σ) (he : Ext (Split ctx.path).2 ≠ []) (hi : idOf (Split ctx.path).2 ≠ []) :
    (ServeFastHTTP env h ctx w).2.calls =
      w.calls ++
        (if ctx.FormValue (ascii "reload") ≠ [] then [Call.Reload (idOf (Split ctx.path).2)]
          else []) ++
        (if Ext (Split ctx.path).2 = ascii ".png" then
            [Call.WriteImage (idOf (Split ctx.path).2) h.imgWidth h.imgHeight]
          else if Ext (Split ctx.path).2 = ascii ".wav" then
            [Call.WriteAudio (idOf (Split ctx.path).2)
              (ToLower env.unicodeLower (ctx.FormValue (ascii "lang")))]
          else []) := by
  by_cases h1 : Ext (Split ctx.path).2 = ascii ".png"
  · rw [ServeFastHTTP_png env h ctx w h1 hi, serveFastHTTP_png, if_pos h1]
    simp only [reloadStep_calls]
  · by_cases h2 : Ext (Split ctx.path).2 = ascii ".wav"
    · rw [ServeFastHTTP_wav env h ctx w h2 hi, serveFastHTTP_wav, if_neg h1, if_pos h2]
      simp only [reloadStep_calls]
    · rw [ServeFastHTTP_other env h ctx w he hi h1 h2, if_neg h1, if_neg h2]
      simp only [reloadStep_calls, List.append_nil]

theorem Peek_setNoCache (ctx : RequestCtx) :
    (setNoCache ctx).resp.header.Peek (ascii "Cache-Control") =
      some (ascii "no-cache, no-store, must-revalidate") ∧
    (setNoCache ctx).resp.header.Peek (ascii "Pragma") = some (ascii "no-cache") ∧
    (setNoCache ctx).resp.header.Peek (ascii "Expires") = some (ascii "0") := by
  refine ⟨?_, ?_, ?_⟩
  · simp only [setNoCache, RequestCtx.SetHeader]
    rw [Peek_Set_other _ _ _ _ (by decide), Peek_Set_other _ _ _ _ (by decide), Peek_Set_same]
  · simp only [setNoCache, RequestCtx.SetHeader]
    rw [Peek_Set_other _ _ _ _ (by decide), Peek_Set_same]
  · simp only [setNoCache, RequestCtx.SetHeader]
    rw [Peek_Set_same]

/-- The headers other than `Content-Type` pass unchanged through the
`Content-Type` assignment and the tail of `serveFastHTTP`. -/
theorem Peek_finishOK_other (ctx : RequestCtx) (v c k : GoString) (d : Bool)
    (hk : ascii "Content-Type" ≠ k) :
    (finishOK (ctx.SetHeader (ascii "Content-Type") v) c d).resp.header.Peek k =
      ctx.resp.header.Peek k := by
  cases d
  · simp only [finishOK, RequestCtx.SetHeader, RequestCtx.SetStatusCode, RequestCtx.SetBody]
    exact Peek_Set_other _ _ _ _ hk
  · simp only [finishOK, RequestCtx.SetHeader, RequestCtx.SetStatusCode, RequestCtx.SetBody]
    simp only [if_true]
    rw [Peek_Set_other _ _ _ _ hk, Peek_Set_other _ _ _ _ hk]

/-- The `Content-Type` left by the tail of `serveFastHTTP`. -/
theorem Peek_finishOK_type (ctx : RequestCtx) (v c : GoString) (d : Bool) :
    (finishOK (ctx.SetHeader (ascii "Content-Type") v) c d).resp.header.Peek
        (ascii "Content-Type") =
      some (if d = true then ascii "application/octet-stream" else v) := by
  cases d
  · simp only [finishOK, RequestCtx.SetHeader, RequestCtx.SetStatusCode, RequestCtx.SetBody]
    exact Peek_Set_same _ _ _
  · simp only [finishOK, RequestCtx.SetHeader, RequestCtx.SetStatusCode, RequestCtx.SetBody]
    simp only [if_true]
    exact Peek_Set_same _ _ _

theorem stripTrailingSlashes_skip (a : GoString) (k : Nat) :
    ∀ j, j ≤ k →
      stripTrailingSlashes (a ++ List.replicate k slash) (a.length + j) =
        stripTrailingSlashes (a ++ List.replicate k slash) a.length
  | 0, _ => rfl
  | j + 1, h => by
    have hget : (a ++ List.replicate k slash).getD (a.length + j) 0 = slash := by
      rw [List.getD_append_right _ _ _ _ (by omega)]
      simp only [Nat.add_sub_cancel_left]
      rw [List.getD_eq_getElem _ _ (by simp; omega)]
      simp
    rw [← Nat.add_assoc]
    simp only [stripTrailingSlashes, hget, if_true]
    exact stripTrailingSlashes_skip a k j (by omega)

theorem stripTrailingSlashes_stop (a b : GoString) (x : Nat) (hx : x ≠ slash) :
    stripTrailingSlashes (a ++ [x] ++ b) (a ++ [x]).length = a ++ [x] := by
  have hlen : (a ++ [x]).length = a.length + 1 := by simp
  have hget : (a ++ [x] ++ b).getD a.length 0 = x := by
    rw [List.getD_append _ _ _ _ (by simp), List.getD_append_right _ _ _ _ (Nat.le_refl _)]
    simp
  rw [hlen]
  simp only [stripTrailingSlashes, hget, if_neg hx]
  rw [← hlen, List.take_left]

/-- Every string is a part that is empty or ends in a non-slash byte, followed
by a run of slashes. -/
theorem exists_trailing_slashes (p : GoString) :
    ∃ q k, p = q ++ List.replicate k slash ∧ (q = [] ∨ ∃ a x, q = a ++ [x] ∧ x ≠ slash) := by
  induction p using List.reverseRecOn with
  | nil => exact ⟨[], 0, rfl, Or.inl rfl⟩
  | append_singleton l x ih =>
    by_cases hx : x = slash
    · obtain ⟨q, k, hq, hq2⟩ := ih
      refine ⟨q, k + 1, ?_, hq2⟩
      rw [hq, hx, List.replicate_succ', List.append_assoc]
    · exact ⟨l ++ [x], 0, by simp, Or.inr ⟨l, x, rfl, hx⟩⟩

theorem Base_slashes (k : Nat) : Base (List.replicate (k + 1) slash) = ascii "/" := by
  have hne : List.replicate (k + 1) slash ≠ [] := by simp [List.replicate_succ]
  have hstrip : stripTrailingSlashes (([] : GoString) ++ List.replicate (k + 1) slash)
      (0 + (k + 1)) = [] :=
    stripTrailingSlashes_skip [] (k + 1) (k + 1) (Nat.le_refl _)
  simp only [List.nil_append, Nat.zero_add] at hstrip
  unfold Base
  rw [if_neg hne]
  simp only [List.length_replicate, hstrip]
  rfl

/-- What `path.Base` returns on a slash-free, non-empty component followed by
slashes and preceded by nothing or by a prefix ending in a slash. -/
theorem Base_component (pre t : GoString) (k : Nat)
    (hpre : pre = [] ∨ ∃ a, pre = a ++ [slash]) (ht : t ≠ []) (hs : slash ∉ t) :
    Base (pre ++ t ++ List.replicate k slash) = t := by
  obtain ⟨t0, x, rfl⟩ : ∃ t0 x, t = t0 ++ [x] := by
    rcases List.eq_nil_or_concat t with h | ⟨l, b, h⟩
    · exact absurd h ht
    · exact ⟨l, b, by simpa using h⟩
  have hx : x ≠ slash := fun e => hs (by simp [e])
  have hne : pre ++ (t0 ++ [x]) ++ List.replicate k slash ≠ [] := by simp
  have hstrip : stripTrailingSlashes (pre ++ (t0 ++ [x]) ++ List.replicate k slash)
      (pre ++ (t0 ++ [x]) ++ List.replicate k slash).length = pre ++ (t0 ++ [x]) := by
    have hl : (pre ++ (t0 ++ [x]) ++ List.replicate k slash).length =
        (pre ++ (t0 ++ [x])).length + k := by simp; omega
    rw [hl, stripTrailingSlashes_skip (pre ++ (t0 ++ [x])) k k (Nat.le_refl _)]
    have e : pre ++ (t0 ++ [x]) = (pre ++ t0) ++ [x] := by simp
    rw [e]
    exact stripTrailingSlashes_stop (pre ++ t0) (List.replicate k slash) x hx
  have hsp := Split_append pre (t0 ++ [x]) hpre hs
  have hnil : t0 ++ [x] ≠ [] := by simp
  unfold Base
  rw [if_neg hne]
  simp only [hstrip]
  rcases hpre with rfl | ⟨a, rfl⟩
  · have hidx : LastIndexByte ([] ++ (t0 ++ [x])) slash = -1 :=
      LastIndexByte_not_mem _ _ (by simpa using hs)
    rw [hidx]
    simp
  · have e : a ++ [slash] ++ (t0 ++ [x]) = a ++ slash :: (t0 ++ [x]) := by simp
    have hidx : LastIndexByte (a ++ [slash] ++ (t0 ++ [x])) slash = (a.length : Int) := by
      rw [e]; exact LastIndexByte_last a (t0 ++ [x]) slash hs
    have h1 : ((a.length : Int) + 1).toNat = (a ++ [slash]).length := by simp
    rw [hidx, h1, List.drop_left]
    simp

/-- The value of `path.Base` is a given slash-free component `t` (other than
the two special results `.` and `/`) exactly when the path is that component,
preceded by nothing or by a prefix ending in a slash, and followed only by
slashes. -/
theorem Base_eq_iff (p t : GoString) (ht : t ≠ []) (hs : slash ∉ t) (hdot : t ≠ ascii ".") :
    Base p = t ↔
      ∃ pre k, p = pre ++ t ++ List.replicate k slash ∧
        (pre = [] ∨ pre.getLast? = some slash) := by
  constructor
  · intro hb
    obtain ⟨q, k, rfl, hq⟩ := exists_trailing_slashes p
    rcases hq with rfl | ⟨a, x, rfl, hx⟩
    · exfalso
      cases k with
      | zero => exact hdot (by rw [← hb]; rfl)
      | succ k =>
        apply hs
        rw [← hb, List.nil_append, Base_slashes k]
        decide
    · obtain ⟨h1, h2, h3⟩ := Split_spec (a ++ [x])
      have hcomp : (Split (a ++ [x])).2 ≠ [] := by
        intro hnil
        rw [hnil, List.append_nil] at h1
        rcases h3 with h3 | ⟨b, h3⟩
        · rw [h3] at h1; simp at h1
        · rw [h3] at h1
          have := List.append_inj_right' h1 rfl
          simp only [List.cons.injEq, and_true] at this
          exact hx this.symm
      have hB := Base_component (Split (a ++ [x])).1 (Split (a ++ [x])).2 k h3 hcomp h2
      rw [h1] at hB
      rw [hB] at hb
      refine ⟨(Split (a ++ [x])).1, k, ?_, ?_⟩
      · rw [← hb, h1]
      · rcases h3 with h3 | ⟨b, h3⟩
        · exact Or.inl h3
        · exact Or.inr (List.getLast?_eq_some_iff.2 ⟨b, h3⟩)
  · rintro ⟨pre, k, rfl, hpre⟩
    refine Base_component pre t k ?_ ht hs
    rcases hpre with h | h
    · exact Or.inl h
    · exact Or.inr (List.getLast?_eq_some_iff.1 h)

theorem lowerByte_idem (c : Nat) : lowerByte (lowerByte c) = lowerByte c := by
  unfold lowerByte
  split_ifs <;> omega

theorem lowerByte_lt (c : Nat) (hc : c < 128) : lowerByte c < 128 := by
  unfold lowerByte
  split_ifs <;> omega

/-- On a string of ASCII bytes `strings.ToLower` is the bytewise map. -/
theorem ToLower_ascii (u : GoString → GoString) (s : GoString) (hs : ∀ c ∈ s, c < 128) :
    ToLower u s = s.map lowerByte := by
  have hall : s.all (fun c => decide (c < 128)) = true := by
    simpa [List.all_eq_true] using hs
  unfold ToLower
  rw [if_pos hall]
  split_ifs with hany
  · rfl
  · have hno : ∀ c ∈ s, lowerByte c = c := by
      intro c hc
      unfold lowerByte
      rw [if_neg]
      intro hu
      apply hany
      rw [List.any_eq_true]
      exact ⟨c, hc, by simpa using hu⟩
    have hmap : s.map lowerByte = s.map id := List.map_congr_left hno
    rw [hmap, List.map_id]

/-- The response headers `serveFastHTTP` leaves under the three cache keys. -/
theorem serveFastHTTP_cache_headers {σ : Type} (env : Env σ) (h : captchaHandler)
    (ctx : RequestCtx) (w : World σ) (id ext lang : GoString) (download : Bool) :
    (serveFastHTTP env h ctx w id ext lang download).2.1.resp.header.Peek
      (ascii "Cache-Control") = some (ascii "no-cache, no-store, must-revalidate") ∧
    (serveFastHTTP env h ctx w id ext lang download).2.1.resp.header.Peek
      (ascii "Pragma") = some (ascii "no-cache") ∧
    (serveFastHTTP env h ctx w id ext lang download).2.1.resp.header.Peek
      (ascii "Expires") = some (ascii "0") := by
  obtain ⟨h1, h2, h3⟩ := Peek_setNoCache ctx
  by_cases hp : ext = ascii ".png"
  · rw [hp, serveFastHTTP_png]
    simp only
    rw [Peek_finishOK_other _ _ _ _ _ (by decide), Peek_finishOK_other _ _ _ _ _ (by decide),
      Peek_finishOK_other _ _ _ _ _ (by decide)]
    exact ⟨h1, h2, h3⟩
  · by_cases hw : ext = ascii ".wav"
    · rw [hw, serveFastHTTP_wav]
      simp only
      rw [Peek_finishOK_other _ _ _ _ _ (by decide), Peek_finishOK_other _ _ _ _ _ (by decide),
        Peek_finishOK_other _ _ _ _ _ (by decide)]
      exact ⟨h1, h2, h3⟩
    · rw [serveFastHTTP_other env h ctx w id ext lang download hp hw]
      exact ⟨h1, h2, h3⟩

/-! ## The claims -/

/-- C1: for every directory prefix `d` that is empty or ends in a slash, every
non-empty `id` without a slash (dots allowed) and every `ext` among `.png`,
`.wav`, `ServeFastHTTP` on the path `d ++ id ++ ext` splits it into directory `d`
and file `id ++ ext`, takes `ext` as the extension and `id` as the captcha id,
hands exactly these to `serveFastHTTP`, and the renderer is called with `id`. -/
theorem C1_decode_last_segment {σ : Type} (env : Env σ) (h : captchaHandler) (ctx : RequestCtx)
    (w : World σ) (d id ext : GoString)
    (hd : d = [] ∨ d.getLast? = some slash) (hid : id ≠ []) (hs : slash ∉ id)
    (hext : ext = ascii ".png" ∨ ext = ascii ".wav") (hp : ctx.path = d ++ id ++ ext) :
    Split ctx.path = (d, id ++ ext) ∧ Ext (id ++ ext) = ext ∧
    (id ++ ext).take ((id ++ ext).length - (Ext (id ++ ext)).length) = id ∧
    ServeFastHTTP env h ctx w =
      (serveFastHTTP env h ctx (reloadStep env ctx id w) id ext
        (ToLower env.unicodeLower (ctx.FormValue (ascii "lang")))
        (decide (Base d = ascii "download"))).2 ∧
    (ext = ascii ".png" → (ServeFastHTTP env h ctx w).2.calls =
      (reloadStep env ctx id w).calls ++ [Call.WriteImage id h.imgWidth h.imgHeight]) ∧
    (ext = ascii ".wav" → (ServeFastHTTP env h ctx w).2.calls =
      (reloadStep env ctx id w).calls ++
        [Call.WriteAudio id (ToLower env.unicodeLower (ctx.FormValue (ascii "lang")))]) := by
  have hd2 : d = [] ∨ ∃ a, d = a ++ [slash] := by
    rcases hd with hd | hd
    · exact Or.inl hd
    · exact Or.inr (List.getLast?_eq_some_iff.1 hd)
  have hse : slash ∉ ext := by
    rcases hext with rfl | rfl <;> decide
  have hsf : slash ∉ id ++ ext := by
    intro hm
    rcases List.mem_append.1 hm with hm | hm
    · exact hs hm
    · exact hse hm
  have hsplit : Split ctx.path = (d, id ++ ext) := by
    rw [hp, List.append_assoc]
    exact Split_append d (id ++ ext) hd2 hsf
  have hE : Ext (id ++ ext) = ext := by
    rcases hext with rfl | rfl
    · exact Ext_png id
    · exact Ext_wav id
  have hI : idOf (id ++ ext) = id := by
    rcases hext with rfl | rfl
    · exact idOf_png id
    · exact idOf_wav id
  have hS : ServeFastHTTP env h ctx w =
      (serveFastHTTP env h ctx (reloadStep env ctx id w) id ext
        (ToLower env.unicodeLower (ctx.FormValue (ascii "lang")))
        (decide (Base d = ascii "download"))).2 := by
    rcases hext with rfl | rfl
    · have := ServeFastHTTP_png env h ctx w (by rw [hsplit]; exact hE)
        (by rw [hsplit]; simpa [hI] using hid)
      rw [this, hsplit]
      simp only [hI]
    · have := ServeFastHTTP_wav env h ctx w (by rw [hsplit]; exact hE)
        (by rw [hsplit]; simpa [hI] using hid)
      rw [this, hsplit]
      simp only [hI]
  refine ⟨hsplit, hE, hI, hS, ?_, ?_⟩
  · rintro rfl
    rw [hS, serveFastHTTP_png]
  · rintro rfl
    rw [hS, serveFastHTTP_wav]

/-- C1, on the path `/a.b.png`: directory `/`, id `a.b`, extension `.png`. -/
theorem C1_decode_last_segment_witness :
    (mkCtx "/a.b.png" "" "").path = ascii "/" ++ ascii "a.b" ++ ascii ".png" ∧
    Split (mkCtx "/a.b.png" "" "").path = (ascii "/", ascii "a.b" ++ ascii ".png") ∧
    (ServeFastHTTP testEnv (Server 240 80) (mkCtx "/a.b.png" "" "") w0).2.calls =
      (reloadStep testEnv (mkCtx "/a.b.png" "" "") (ascii "a.b") w0).calls ++
        [Call.WriteImage (ascii "a.b") (Server 240 80).imgWidth (Server 240 80).imgHeight] :=
  have key := C1_decode_last_segment testEnv (Server 240 80) (mkCtx "/a.b.png" "" "") w0
    (ascii "/") (ascii "a.b") (ascii ".png") (by decide) (by decide) (by decide)
    (Or.inl rfl) (by decide)
  ⟨by decide, key.1, key.2.2.2.2.1 rfl⟩

/-- C2: `ServeFastHTTP` answers 200 exactly when the last path segment is a
non-empty id followed by `.png` or `.wav` (case-sensitively), and 404 in every
other case; the status is the same for any two requests with the same last
path segment, whatever the collaborators, the renderer results, the directory
part and the form values are. -/
theorem C2_status_code {σ : Type} (env : Env σ) (h : captchaHandler) (ctx : RequestCtx)
    (w : World σ) :
    ((ServeFastHTTP env h ctx w).1.resp.statusCode = 200 ↔
      ∃ id, id ≠ [] ∧ ((Split ctx.path).2 = id ++ ascii ".png" ∨
        (Split ctx.path).2 = id ++ ascii ".wav")) ∧
    ((¬ ∃ id, id ≠ [] ∧ ((Split ctx.path).2 = id ++ ascii ".png" ∨
        (Split ctx.path).2 = id ++ ascii ".wav")) →
      (ServeFastHTTP env h ctx w).1.resp.statusCode = 404) ∧
    (∀ (τ : Type) (env2 : Env τ) (h2 : captchaHandler) (ctx2 : RequestCtx) (w2 : World τ),
      (Split ctx2.path).2 = (Split ctx.path).2 →
      (ServeFastHTTP env2 h2 ctx2 w2).1.resp.statusCode =
        (ServeFastHTTP env h ctx w).1.resp.statusCode) := by
  have hs := (Split_spec ctx.path).2.1
  have hr := recognised_iff (Split ctx.path).2 hs
  refine ⟨?_, ?_, ?_⟩
  · rw [← hr, ServeFastHTTP_status]
    split_ifs with hc
    · simp [hc]
    · simp only [hc, iff_false]; decide
  · rw [← hr, ServeFastHTTP_status]
    intro hc
    rw [if_neg hc]
  · intro τ env2 h2 ctx2 w2 he
    rw [ServeFastHTTP_status, ServeFastHTTP_status, he]

/-- C2, on `/abc.wav` (200 although the renderer of the test environment
returns an error), `/abc.gif` and `/abc.PNG` (404). -/
theorem C2_status_code_witness :
    (testEnv.WriteAudio (ascii "abc") [] w0.store).1.2 = some GoError.ErrNotFound ∧
    (ServeFastHTTP testEnv (Server 240 80) (mkCtx "/abc.wav" "" "") w0).1.resp.statusCode = 200 ∧
    (ServeFastHTTP testEnv (Server 240 80) (mkCtx "/abc.gif" "1" "ru") w0).1.resp.statusCode = 404 ∧
    (ServeFastHTTP testEnv (Server 240 80) (mkCtx "/abc.PNG" "" "") w0).1.resp.statusCode = 404 :=
  ⟨by decide,
   (C2_status_code testEnv (Server 240 80) (mkCtx "/abc.wav" "" "") w0).1.2
      ⟨ascii "abc", by decide, Or.inr (by decide)⟩,
   (C2_status_code testEnv (Server 240 80) (mkCtx "/abc.gif" "1" "ru") w0).2.1
      (fun hex => absurd ((recognised_iff _ (by decide)).2 hex) (by decide)),
   (C2_status_code testEnv (Server 240 80) (mkCtx "/abc.PNG" "" "") w0).2.1
      (fun hex => absurd ((recognised_iff _ (by decide)).2 hex) (by decide))⟩

/-- C3: when the last path segment has no extension or an empty id (which, for
a segment, means it has no dot, or its only dot is its first byte),
`ServeFastHTTP` answers not-found and leaves the world untouched: no call to
`WriteImage`, `WriteAudio` or `Reload` is made.  And for every extension other
than `.png` and `.wav`, `serveFastHTTP` returns `ErrNotFound`, makes no call,
and leaves the status code and the body as they were. -/
theorem C3_not_found_without_renderer {σ : Type} (env : Env σ) (h : captchaHandler)
    (ctx : RequestCtx) (w : World σ) :
    ((Ext (Split ctx.path).2 = [] ∨
        (Split ctx.path).2.take ((Split ctx.path).2.length - (Ext (Split ctx.path).2).length) = []) →
      (ServeFastHTTP env h ctx w).1.resp.statusCode = 404 ∧
      (ServeFastHTTP env h ctx w).2.calls = w.calls ∧
      (ServeFastHTTP env h ctx w).2.store = w.store) ∧
    ((dot ∉ (Split ctx.path).2 ∨ ∃ r, (Split ctx.path).2 = dot :: r ∧ dot ∉ r) ↔
      (Ext (Split ctx.path).2 = [] ∨
        (Split ctx.path).2.take ((Split ctx.path).2.length - (Ext (Split ctx.path).2).length) = [])) ∧
    (∀ id ext lang download, ext ≠ ascii ".png" → ext ≠ ascii ".wav" →
      (serveFastHTTP env h ctx w id ext lang download).1 = some GoError.ErrNotFound ∧
      (serveFastHTTP env h ctx w id ext lang download).2.2.calls = w.calls ∧
      (serveFastHTTP env h ctx w id ext lang download).2.2.store = w.store ∧
      (serveFastHTTP env h ctx w id ext lang download).2.1.resp.statusCode = ctx.resp.statusCode ∧
      (serveFastHTTP env h ctx w id ext lang download).2.1.resp.body = ctx.resp.body) := by
  refine ⟨?_, ?_, ?_⟩
  · intro hinv
    rw [ServeFastHTTP_invalid env h ctx w hinv]
    exact ⟨rfl, rfl, rfl⟩
  · exact (invalid_iff (Split ctx.path).2 (Split_spec ctx.path).2.1).symm
  · intro id ext lang download h1 h2
    rw [serveFastHTTP_other env h ctx w id ext lang download h1 h2]
    exact ⟨rfl, rfl, rfl, rfl, rfl⟩

/-- C3, on the paths `/`, `/abc` and `/.png`, each with `reload=1`: status 404
and an empty call log; and `serveFastHTTP` on the extension `.gif`. -/
theorem C3_not_found_without_renderer_witness :
    ((ServeFastHTTP testEnv (Server 240 80) (mkCtx "/" "1" "") w0).1.resp.statusCode = 404 ∧
      (ServeFastHTTP testEnv (Server 240 80) (mkCtx "/" "1" "") w0).2.calls = [] ∧
      (ServeFastHTTP testEnv (Server 240 80) (mkCtx "/" "1" "") w0).2.store = 0) ∧
    ((ServeFastHTTP testEnv (Server 240 80) (mkCtx "/abc" "1" "") w0).1.resp.statusCode = 404 ∧
      (ServeFastHTTP testEnv (Server 240 80) (mkCtx "/abc" "1" "") w0).2.calls = [] ∧
      (ServeFastHTTP testEnv (Server 240 80) (mkCtx "/abc" "1" "") w0).2.store = 0) ∧
    ((ServeFastHTTP testEnv (Server 240 80) (mkCtx "/.png" "1" "") w0).1.resp.statusCode = 404 ∧
      (ServeFastHTTP testEnv (Server 240 80) (mkCtx "/.png" "1" "") w0).2.calls = [] ∧
      (ServeFastHTTP testEnv (Server 240 80) (mkCtx "/.png" "1" "") w0).2.store = 0) ∧
    (serveFastHTTP testEnv (Server 240 80) (mkCtx "/abc.gif" "" "") w0 (ascii "abc")
      (ascii ".gif") [] false).1 = some GoError.ErrNotFound :=
  ⟨(C3_not_found_without_renderer testEnv (Server 240 80) (mkCtx "/" "1" "") w0).1 (by decide),
   (C3_not_found_without_renderer testEnv (Server 240 80) (mkCtx "/abc" "1" "") w0).1 (by decide),
   (C3_not_found_without_renderer testEnv (Server 240 80) (mkCtx "/.png" "1" "") w0).1 (by decide),
   ((C3_not_found_without_renderer testEnv (Server 240 80) (mkCtx "/abc.gif" "" "") w0).2.2
      (ascii "abc") (ascii ".gif") [] false (by decide) (by decide)).1⟩

/-- The `Content-Type` of a served request. -/
theorem ServeFastHTTP_content_type {σ : Type} (env : Env σ) (h : captchaHandler)
    (ctx : RequestCtx) (w : World σ) (hi : idOf (Split ctx.path).2 ≠ [])
    (he : Ext (Split ctx.path).2 = ascii ".png" ∨ Ext (Split ctx.path).2 = ascii ".wav") :
    (ServeFastHTTP env h ctx w).1.resp.header.Peek (ascii "Content-Type") =
      some (if Base (Split ctx.path).1 = ascii "download" then ascii "application/octet-stream"
        else if Ext (Split ctx.path).2 = ascii ".png" then ascii "image/png"
        else ascii "audio/x-wav") := by
  rcases he with he | he
  · rw [ServeFastHTTP_png env h ctx w he hi, serveFastHTTP_png, Peek_finishOK_type]
    simp [he]
  · have hne : Ext (Split ctx.path).2 ≠ ascii ".png" := by rw [he]; decide
    rw [ServeFastHTTP_wav env h ctx w he hi, serveFastHTTP_wav, Peek_finishOK_type]
    simp [hne]

/-- C4: for a served request (non-empty id, extension `.png` or `.wav`) the
download flag handed to `serveFastHTTP` is `path.Base(dir) == "download"`; it
is true exactly when the directory part is `download` followed by slashes and
preceded by nothing or by a prefix ending in a slash; the `Content-Type` is
`application/octet-stream` exactly in that case, for either renderer, and is
`image/png` resp. `audio/x-wav` otherwise; the directory parts of `x.png` and
`/x.png` (empty and `/`) never give a download. -/
theorem C4_download_from_parent_directory {σ : Type} (env : Env σ) (h : captchaHandler)
    (ctx : RequestCtx) (w : World σ) (hi : idOf (Split ctx.path).2 ≠ [])
    (he : Ext (Split ctx.path).2 = ascii ".png" ∨ Ext (Split ctx.path).2 = ascii ".wav") :
    ServeFastHTTP env h ctx w =
      (serveFastHTTP env h ctx (reloadStep env ctx (idOf (Split ctx.path).2) w)
        (idOf (Split ctx.path).2) (Ext (Split ctx.path).2)
        (ToLower env.unicodeLower (ctx.FormValue (ascii "lang")))
        (decide (Base (Split ctx.path).1 = ascii "download"))).2 ∧
    (decide (Base (Split ctx.path).1 = ascii "download") = true ↔
      ∃ pre k, (Split ctx.path).1 = pre ++ ascii "download" ++ List.replicate k slash ∧
        (pre = [] ∨ pre.getLast? = some slash)) ∧
    ((ServeFastHTTP env h ctx w).1.resp.header.Peek (ascii "Content-Type") =
        some (ascii "application/octet-stream") ↔
      Base (Split ctx.path).1 = ascii "download") ∧
    (Base (Split ctx.path).1 ≠ ascii "download" →
      (ServeFastHTTP env h ctx w).1.resp.header.Peek (ascii "Content-Type") =
        some (if Ext (Split ctx.path).2 = ascii ".png" then ascii "image/png"
          else ascii "audio/x-wav")) ∧
    (((Split ctx.path).1 = [] ∨ (Split ctx.path).1 = ascii "/") →
      Base (Split ctx.path).1 ≠ ascii "download") := by
  have hct := ServeFastHTTP_content_type env h ctx w hi he
  refine ⟨?_, ?_, ?_, ?_, ?_⟩
  · rcases he with he | he
    · rw [ServeFastHTTP_png env h ctx w he hi, he]
    · rw [ServeFastHTTP_wav env h ctx w he hi, he]
  · rw [decide_eq_true_iff]
    exact Base_eq_iff _ _ (by decide) (by decide) (by decide)
  · rw [hct]
    by_cases hb : Base (Split ctx.path).1 = ascii "download"
    · simp [hb]
    · simp only [hb, if_false, iff_false]
      split_ifs <;> decide
  · intro hb
    rw [hct, if_neg hb]
  · rintro (hd | hd) <;> rw [hd] <;> decide

/-- C4, on `/download/abc.wav` (a download, served as a binary stream). -/
theorem C4_download_from_parent_directory_witness :
    (ServeFastHTTP testEnv (Server 240 80) (mkCtx "/download/abc.wav" "" "") w0).1.resp.header.Peek
        (ascii "Content-Type") = some (ascii "application/octet-stream") ↔
      Base (Split (mkCtx "/download/abc.wav" "" "").path).1 = ascii "download" :=
  (C4_download_from_parent_directory testEnv (Server 240 80) (mkCtx "/download/abc.wav" "" "") w0
    (by decide) (Or.inr (by decide))).2.2.1

/-- C5, refuted as stated: the path `/download/x/abc.png` begins with the
segment `download`, is served with status 200, and its `Content-Type` is
`image/png`, not `application/octet-stream`. -/
theorem C5_first_segment_counterexample :
    (mkCtx "/download/x/abc.png" "" "").path = ascii "/download/" ++ ascii "x/abc.png" ∧
    (ServeFastHTTP testEnv (Server 240 80) (mkCtx "/download/x/abc.png" "" "")
      w0).1.resp.statusCode = 200 ∧
    (ServeFastHTTP testEnv (Server 240 80) (mkCtx "/download/x/abc.png" "" "")
      w0).1.resp.header.Peek (ascii "Content-Type") = some (ascii "image/png") ∧
    (ServeFastHTTP testEnv (Server 240 80) (mkCtx "/download/x/abc.png" "" "")
      w0).1.resp.header.Peek (ascii "Content-Type") ≠ some (ascii "application/octet-stream") := by
  decide

/-- C5, amended: for every served request the `Content-Type` is
`application/octet-stream` when the last component of the directory part is
`download`, and otherwise `image/png` for `.png` and `audio/x-wav` for `.wav`;
in particular it is `application/octet-stream` for every path `/download/<file>`
in which `download` is at once the first segment and the parent directory. -/
theorem C5_content_type_by_parent_directory {σ : Type} (env : Env σ) (h : captchaHandler)
    (ctx : RequestCtx) (w : World σ) (hi : idOf (Split ctx.path).2 ≠ [])
    (he : Ext (Split ctx.path).2 = ascii ".png" ∨ Ext (Split ctx.path).2 = ascii ".wav") :
    (ServeFastHTTP env h ctx w).1.resp.header.Peek (ascii "Content-Type") =
      some (if Base (Split ctx.path).1 = ascii "download" then ascii "application/octet-stream"
        else if Ext (Split ctx.path).2 = ascii ".png" then ascii "image/png"
        else ascii "audio/x-wav") ∧
    (∀ file, slash ∉ file → ctx.path = ascii "/download/" ++ file →
      (ServeFastHTTP env h ctx w).1.resp.header.Peek (ascii "Content-Type") =
        some (ascii "application/octet-stream")) := by
  have hct := ServeFastHTTP_content_type env h ctx w hi he
  refine ⟨hct, ?_⟩
  intro file hs hp
  have hsplit : Split ctx.path = (ascii "/download/", file) := by
    rw [hp]
    exact Split_append _ _ (Or.inr ⟨ascii "/download", by decide⟩) hs
  have hb : Base (Split ctx.path).1 = ascii "download" := by
    rw [hsplit]
    show Base (ascii "/download/") = ascii "download"
    decide
  rw [hct, if_pos hb]

/-- C5 amended, on `/download/abc.png` and on `/download/x/abc.png`. -/
theorem C5_content_type_by_parent_directory_witness :
    (ServeFastHTTP testEnv (Server 240 80) (mkCtx "/download/abc.png" "" "")
      w0).1.resp.header.Peek (ascii "Content-Type") = some (ascii "application/octet-stream") ∧
    (ServeFastHTTP testEnv (Server 240 80) (mkCtx "/download/x/abc.png" "" "")
      w0).1.resp.header.Peek (ascii "Content-Type") =
      some (if Base (Split (mkCtx "/download/x/abc.png" "" "").path).1 = ascii "download"
        then ascii "application/octet-stream"
        else if Ext (Split (mkCtx "/download/x/abc.png" "" "").path).2 = ascii ".png"
        then ascii "image/png" else ascii "audio/x-wav") :=
  ⟨(C5_content_type_by_parent_directory testEnv (Server 240 80)
      (mkCtx "/download/abc.png" "" "") w0 (by decide) (Or.inl (by decide))).2
      (ascii "abc.png") (by decide) (by decide),
   (C5_content_type_by_parent_directory testEnv (Server 240 80)
      (mkCtx "/download/x/abc.png" "" "") w0 (by decide) (Or.inl (by decide))).1⟩

/-- C6, refuted as stated: the request `/abc?reload=1` carries a non-empty
`reload` value and decodes to the id `abc`, yet no call is made at all, so
`Reload` is not invoked. -/
theorem C6_reload_counterexample :
    (mkCtx "/abc" "1" "").FormValue (ascii "reload") ≠ [] ∧
    idOf (Split (mkCtx "/abc" "1" "").path).2 = ascii "abc" ∧
    (ServeFastHTTP testEnv (Server 240 80) (mkCtx "/abc" "1" "") w0).2.calls = [] ∧
    Call.Reload (ascii "abc") ∉
      (ServeFastHTTP testEnv (Server 240 80) (mkCtx "/abc" "1" "") w0).2.calls := by
  decide

/-- C6, amended: for a request whose last path segment has a non-empty
extension and a non-empty id and which carries a non-empty `reload` value, the
calls made are `Reload` with the decoded id, once, followed by the renderer
call if the extension is `.png` or `.wav` (no `Reload` among what follows), and
the renderer runs on the store that `Reload` returned; for every request whose
`reload` value is empty, no `Reload` call is made. -/
theorem C6_reload_before_render {σ : Type} (env : Env σ) (h : captchaHandler)
    (ctx : RequestCtx) (w : World σ) :
    (Ext (Split ctx.path).2 ≠ [] → idOf (Split ctx.path).2 ≠ [] →
      ctx.FormValue (ascii "reload") ≠ [] →
      (∃ rest, (ServeFastHTTP env h ctx w).2.calls =
          w.calls ++ Call.Reload (idOf (Split ctx.path).2) :: rest ∧
        (∀ i, Call.Reload i ∉ rest) ∧
        rest = (if Ext (Split ctx.path).2 = ascii ".png" then
            [Call.WriteImage (idOf (Split ctx.path).2) h.imgWidth h.imgHeight]
          else if Ext (Split ctx.path).2 = ascii ".wav" then
            [Call.WriteAudio (idOf (Split ctx.path).2)
              (ToLower env.unicodeLower (ctx.FormValue (ascii "lang")))]
          else [])) ∧
      (Ext (Split ctx.path).2 = ascii ".png" →
        (ServeFastHTTP env h ctx w).1.resp.body =
          (env.WriteImage (idOf (Split ctx.path).2) h.imgWidth h.imgHeight
            (env.Reload (idOf (Split ctx.path).2) w.store)).1.1) ∧
      (Ext (Split ctx.path).2 = ascii ".wav" →
        (ServeFastHTTP env h ctx w).1.resp.body =
          (env.WriteAudio (idOf (Split ctx.path).2)
            (ToLower env.unicodeLower (ctx.FormValue (ascii "lang")))
            (env.Reload (idOf (Split ctx.path).2) w.store)).1.1)) ∧
    (ctx.FormValue (ascii "reload") = [] →
      ∃ new, (ServeFastHTTP env h ctx w).2.calls = w.calls ++ new ∧
        ∀ i, Call.Reload i ∉ new) := by
  constructor
  · intro he hi hr
    refine ⟨⟨_, ?_, ?_, rfl⟩, ?_, ?_⟩
    · rw [ServeFastHTTP_calls env h ctx w he hi, if_pos hr]
      simp
    · intro i
      split_ifs <;> simp
    · intro h1
      rw [ServeFastHTTP_png env h ctx w h1 hi, serveFastHTTP_png]
      simp only [finishOK_body, reloadStep_store, if_pos hr]
    · intro h2
      rw [ServeFastHTTP_wav env h ctx w h2 hi, serveFastHTTP_wav]
      simp only [finishOK_body, reloadStep_store, if_pos hr]
  · intro hr
    by_cases hinv : Ext (Split ctx.path).2 = [] ∨ idOf (Split ctx.path).2 = []
    · rw [ServeFastHTTP_invalid env h ctx w hinv]
      exact ⟨[], by simp, by simp⟩
    · have he : Ext (Split ctx.path).2 ≠ [] := fun e => hinv (Or.inl e)
      have hi : idOf (Split ctx.path).2 ≠ [] := fun e => hinv (Or.inr e)
      rw [ServeFastHTTP_calls env h ctx w he hi]
      simp only [hr, ne_eq, not_true_eq_false, if_false, List.append_nil]
      refine ⟨_, rfl, ?_⟩
      intro i
      split_ifs <;> simp

/-- C6 amended, on `/LBm5vMjHDtdUfaWYXiQX.png?reload=1`: `Reload` on the id,
then `WriteImage` on the id. -/
theorem C6_reload_before_render_witness :
    ∃ rest, (ServeFastHTTP testEnv (Server 240 80) (mkCtx "/LBm5vMjHDtdUfaWYXiQX.png" "1" "")
        w0).2.calls =
        w0.calls ++ Call.Reload (idOf (Split (mkCtx "/LBm5vMjHDtdUfaWYXiQX.png" "1" "").path).2)
          :: rest ∧
      (∀ i, Call.Reload i ∉ rest) ∧
      rest = (if Ext (Split (mkCtx "/LBm5vMjHDtdUfaWYXiQX.png" "1" "").path).2 = ascii ".png" then
          [Call.WriteImage (idOf (Split (mkCtx "/LBm5vMjHDtdUfaWYXiQX.png" "1" "").path).2)
            (Server 240 80).imgWidth (Server 240 80).imgHeight]
        else if Ext (Split (mkCtx "/LBm5vMjHDtdUfaWYXiQX.png" "1" "").path).2 = ascii ".wav" then
          [Call.WriteAudio (idOf (Split (mkCtx "/LBm5vMjHDtdUfaWYXiQX.png" "1" "").path).2)
            (ToLower testEnv.unicodeLower
              ((mkCtx "/LBm5vMjHDtdUfaWYXiQX.png" "1" "").FormValue (ascii "lang")))]
        else []) :=
  ((C6_reload_before_render testEnv (Server 240 80) (mkCtx "/LBm5vMjHDtdUfaWYXiQX.png" "1" "")
    w0).1 (by decide) (by decide) (by decide)).1

/-- C7: for every `.wav` request with a non-empty id, the calls made are the
optional `Reload` followed by `WriteAudio` with the id and
`strings.ToLower` of the `lang` value, whatever that value is; an absent
(empty) `lang` is forwarded as the empty string; `RU` and `ru` are both
forwarded as `ru`; on ASCII values `ToLower` is the bytewise map, is
idempotent, and leaves a value without upper-case letters unchanged. -/
theorem C7_language_forwarding {σ : Type} (env : Env σ) (h : captchaHandler)
    (ctx : RequestCtx) (w : World σ) (he : Ext (Split ctx.path).2 = ascii ".wav")
    (hi : idOf (Split ctx.path).2 ≠ []) :
    (ServeFastHTTP env h ctx w).2.calls =
      (reloadStep env ctx (idOf (Split ctx.path).2) w).calls ++
        [Call.WriteAudio (idOf (Split ctx.path).2)
          (ToLower env.unicodeLower (ctx.FormValue (ascii "lang")))] ∧
    (ctx.FormValue (ascii "lang") = [] →
      (ServeFastHTTP env h ctx w).2.calls =
        (reloadStep env ctx (idOf (Split ctx.path).2) w).calls ++
          [Call.WriteAudio (idOf (Split ctx.path).2) []]) ∧
    ToLower env.unicodeLower (ascii "RU") = ascii "ru" ∧
    ToLower env.unicodeLower (ascii "ru") = ascii "ru" ∧
    (∀ s : GoString, (∀ c ∈ s, c < 128) →
      ToLower env.unicodeLower s = s.map lowerByte ∧
      ToLower env.unicodeLower (ToLower env.unicodeLower s) = ToLower env.unicodeLower s) ∧
    (∀ s : GoString, (∀ c ∈ s, c < 128 ∧ ¬ (65 ≤ c ∧ c ≤ 90)) →
      ToLower env.unicodeLower s = s) := by
  have hcalls : (ServeFastHTTP env h ctx w).2.calls =
      (reloadStep env ctx (idOf (Split ctx.path).2) w).calls ++
        [Call.WriteAudio (idOf (Split ctx.path).2)
          (ToLower env.unicodeLower (ctx.FormValue (ascii "lang")))] := by
    rw [ServeFastHTTP_wav env h ctx w he hi, serveFastHTTP_wav]
  refine ⟨hcalls, ?_, rfl, rfl, ?_, ?_⟩
  · intro hl
    rw [hcalls, hl]
    rfl
  · intro s hs
    have h1 := ToLower_ascii env.unicodeLower s hs
    have hs2 : ∀ c ∈ s.map lowerByte, c < 128 := by
      intro c hc
      obtain ⟨a, ha, rfl⟩ := List.mem_map.1 hc
      exact lowerByte_lt a (hs a ha)
    refine ⟨h1, ?_⟩
    rw [h1, ToLower_ascii env.unicodeLower _ hs2, List.map_map]
    apply List.map_congr_left
    intro a _
    exact lowerByte_idem a
  · intro s hs
    rw [ToLower_ascii env.unicodeLower s (fun c hc => (hs c hc).1)]
    have hmap : s.map lowerByte = s.map id := by
      apply List.map_congr_left
      intro a ha
      unfold lowerByte
      rw [if_neg (hs a ha).2]
      rfl
    rw [hmap, List.map_id]

/-- C7, on `/LBm5vMjHDtdUfaWYXiQX.wav?lang=RU`: `WriteAudio` receives `ru`. -/
theorem C7_language_forwarding_witness :
    (ServeFastHTTP testEnv (Server 240 80) (mkCtx "/LBm5vMjHDtdUfaWYXiQX.wav" "" "RU") w0).2.calls =
      [Call.WriteAudio (ascii "LBm5vMjHDtdUfaWYXiQX") (ascii "ru")] :=
  (C7_language_forwarding testEnv (Server 240 80) (mkCtx "/LBm5vMjHDtdUfaWYXiQX.wav" "" "RU") w0
    (by decide) (by decide)).1.trans (by decide)

/-- C8: for the handler `Server wd ht`, `serveFastHTTP` with extension `.png`
makes exactly one call, `WriteImage` with the id and the dimensions `wd`, `ht`
given at construction (so no `WriteAudio`), and with `.wav` exactly one call,
`WriteAudio` with the id and `lang` (so no `WriteImage`); in both cases the
result is `nil`, the status is 200, the body is the bytes the renderer wrote,
whatever error the renderer returned, and without download the `Content-Type`
is `image/png` resp. `audio/x-wav`. -/
theorem C8_format_dispatch {σ : Type} (env : Env σ) (wd ht : Int) (ctx : RequestCtx)
    (w : World σ) (id lang : GoString) (download : Bool) :
    ((serveFastHTTP env (Server wd ht) ctx w id (ascii ".png") lang download).1 = none ∧
      (serveFastHTTP env (Server wd ht) ctx w id (ascii ".png") lang download).2.2.calls =
        w.calls ++ [Call.WriteImage id wd ht] ∧
      (serveFastHTTP env (Server wd ht) ctx w id (ascii ".png") lang download).2.1.resp.statusCode
        = 200 ∧
      (serveFastHTTP env (Server wd ht) ctx w id (ascii ".png") lang download).2.1.resp.body =
        (env.WriteImage id wd ht w.store).1.1 ∧
      (download = false →
        (serveFastHTTP env (Server wd ht) ctx w id (ascii ".png") lang
          download).2.1.resp.header.Peek (ascii "Content-Type") = some (ascii "image/png"))) ∧
    ((serveFastHTTP env (Server wd ht) ctx w id (ascii ".wav") lang download).1 = none ∧
      (serveFastHTTP env (Server wd ht) ctx w id (ascii ".wav") lang download).2.2.calls =
        w.calls ++ [Call.WriteAudio id lang] ∧
      (serveFastHTTP env (Server wd ht) ctx w id (ascii ".wav") lang download).2.1.resp.statusCode
        = 200 ∧
      (serveFastHTTP env (Server wd ht) ctx w id (ascii ".wav") lang download).2.1.resp.body =
        (env.WriteAudio id lang w.store).1.1 ∧
      (download = false →
        (serveFastHTTP env (Server wd ht) ctx w id (ascii ".wav") lang
          download).2.1.resp.header.Peek (ascii "Content-Type") = some (ascii "audio/x-wav"))) := by
  constructor
  · rw [serveFastHTTP_png]
    refine ⟨rfl, rfl, finishOK_status _ _ _, finishOK_body _ _ _, ?_⟩
    intro hd
    simp only [Peek_finishOK_type, hd]
    rfl
  · rw [serveFastHTTP_wav]
    refine ⟨rfl, rfl, finishOK_status _ _ _, finishOK_body _ _ _, ?_⟩
    intro hd
    simp only [Peek_finishOK_type, hd]
    rfl

/-- C8, on the test environment: the audio renderer there returns the error
`ErrNotFound`, and `serveFastHTTP` still returns `nil` with status 200; the
image is rendered with the dimensions 240 and 80 of the handler. -/
theorem C8_format_dispatch_witness :
    (testEnv.WriteAudio (ascii "abc") (ascii "ru") w0.store).1.2 = some GoError.ErrNotFound ∧
    (serveFastHTTP testEnv (Server 240 80) (mkCtx "/abc.wav" "" "ru") w0 (ascii "abc")
      (ascii ".wav") (ascii "ru") false).1 = none ∧
    (serveFastHTTP testEnv (Server 240 80) (mkCtx "/abc.png" "" "") w0 (ascii "abc")
      (ascii ".png") [] false).2.2.calls = w0.calls ++ [Call.WriteImage (ascii "abc") 240 80] :=
  ⟨by decide,
   (C8_format_dispatch testEnv 240 80 (mkCtx "/abc.wav" "" "ru") w0 (ascii "abc") (ascii "ru")
      false).2.1,
   (C8_format_dispatch testEnv 240 80 (mkCtx "/abc.png" "" "") w0 (ascii "abc") [] false).1.2.1⟩

/-- C9: for every id, extension, language and download flag, the response
left by `serveFastHTTP` has `Cache-Control: no-cache, no-store, must-revalidate`,
`Pragma: no-cache` and `Expires: 0`, also when the extension is not recognised
and nothing else is done; and every response of `ServeFastHTTP` with status 200
has these three values. -/
theorem C9_cache_headers {σ : Type} (env : Env σ) (h : captchaHandler) (ctx : RequestCtx)
    (w : World σ) (id ext lang : GoString) (download : Bool) :
    ((serveFastHTTP env h ctx w id ext lang download).2.1.resp.header.Peek
        (ascii "Cache-Control") = some (ascii "no-cache, no-store, must-revalidate") ∧
      (serveFastHTTP env h ctx w id ext lang download).2.1.resp.header.Peek
        (ascii "Pragma") = some (ascii "no-cache") ∧
      (serveFastHTTP env h ctx w id ext lang download).2.1.resp.header.Peek
        (ascii "Expires") = some (ascii "0")) ∧
    ((ServeFastHTTP env h ctx w).1.resp.statusCode = 200 →
      (ServeFastHTTP env h ctx w).1.resp.header.Peek (ascii "Cache-Control") =
        some (ascii "no-cache, no-store, must-revalidate") ∧
      (ServeFastHTTP env h ctx w).1.resp.header.Peek (ascii "Pragma") =
        some (ascii "no-cache") ∧
      (ServeFastHTTP env h ctx w).1.resp.header.Peek (ascii "Expires") = some (ascii "0")) := by
  refine ⟨serveFastHTTP_cache_headers env h ctx w id ext lang download, ?_⟩
  intro hst
  rw [ServeFastHTTP_status] at hst
  split_ifs at hst with hc
  · obtain ⟨hi, he⟩ := hc
    rcases he with he | he
    · rw [ServeFastHTTP_png env h ctx w he hi]
      exact serveFastHTTP_cache_headers env h ctx _ _ _ _ _
    · rw [ServeFastHTTP_wav env h ctx w he hi]
      exact serveFastHTTP_cache_headers env h ctx _ _ _ _ _
  · omega

/-- C9, on `/download/abc.png`, a 200 response. -/
theorem C9_cache_headers_witness :
    (ServeFastHTTP testEnv (Server 240 80) (mkCtx "/download/abc.png" "1" "")
      w0).1.resp.statusCode = 200 ∧
    (ServeFastHTTP testEnv (Server 240 80) (mkCtx "/download/abc.png" "1" "")
      w0).1.resp.header.Peek (ascii "Cache-Control") =
        some (ascii "no-cache, no-store, must-revalidate") ∧
    (ServeFastHTTP testEnv (Server 240 80) (mkCtx "/download/abc.png" "1" "")
      w0).1.resp.header.Peek (ascii "Pragma") = some (ascii "no-cache") ∧
    (ServeFastHTTP testEnv (Server 240 80) (mkCtx "/download/abc.png" "1" "")
      w0).1.resp.header.Peek (ascii "Expires") = some (ascii "0") :=
  ⟨by decide,
   (C9_cache_headers testEnv (Server 240 80) (mkCtx "/download/abc.png" "1" "") w0 [] [] []
      false).2 (by decide)⟩

/-- C10: among the calls that `ServeFastHTTP` adds to the log, `Reload i`
occurs exactly when the `reload` value is non-empty, the last path segment has
a non-empty extension and a non-empty id, and `i` is that id; whether the
extension is recognised plays no part.  So a request with an unrecognised
extension and a non-empty `reload` value is answered 404 after `Reload` has run
on its id, and a request with an empty id or extension is answered 404 with no
call at all. -/
theorem C10_reload_condition {σ : Type} (env : Env σ) (h : captchaHandler) (ctx : RequestCtx)
    (w : World σ) :
    (∃ new, (ServeFastHTTP env h ctx w).2.calls = w.calls ++ new ∧
      ∀ i, Call.Reload i ∈ new ↔
        (ctx.FormValue (ascii "reload") ≠ [] ∧ Ext (Split ctx.path).2 ≠ [] ∧
          idOf (Split ctx.path).2 ≠ [] ∧ i = idOf (Split ctx.path).2)) ∧
    (ctx.FormValue (ascii "reload") ≠ [] → Ext (Split ctx.path).2 ≠ [] →
      idOf (Split ctx.path).2 ≠ [] → Ext (Split ctx.path).2 ≠ ascii ".png" →
      Ext (Split ctx.path).2 ≠ ascii ".wav" →
      (ServeFastHTTP env h ctx w).1.resp.statusCode = 404 ∧
      (ServeFastHTTP env h ctx w).2.calls =
        w.calls ++ [Call.Reload (idOf (Split ctx.path).2)] ∧
      (ServeFastHTTP env h ctx w).2.store = env.Reload (idOf (Split ctx.path).2) w.store) ∧
    ((Ext (Split ctx.path).2 = [] ∨ idOf (Split ctx.path).2 = []) →
      (ServeFastHTTP env h ctx w).1.resp.statusCode = 404 ∧
      (ServeFastHTTP env h ctx w).2.calls = w.calls ∧
      (ServeFastHTTP env h ctx w).2.store = w.store) := by
  refine ⟨?_, ?_, ?_⟩
  · by_cases hinv : Ext (Split ctx.path).2 = [] ∨ idOf (Split ctx.path).2 = []
    · rw [ServeFastHTTP_invalid env h ctx w hinv]
      refine ⟨[], by simp, ?_⟩
      intro i
      constructor
      · intro hm; simp at hm
      · rintro ⟨_, he, hi, _⟩
        rcases hinv with hinv | hinv
        · exact absurd hinv he
        · exact absurd hinv hi
    · have he : Ext (Split ctx.path).2 ≠ [] := fun e => hinv (Or.inl e)
      have hi : idOf (Split ctx.path).2 ≠ [] := fun e => hinv (Or.inr e)
      rw [ServeFastHTTP_calls env h ctx w he hi, List.append_assoc]
      refine ⟨_, rfl, ?_⟩
      intro i
      by_cases hr : ctx.FormValue (ascii "reload") = []
      · simp only [hr, ne_eq, not_true_eq_false, if_false, List.nil_append, false_and, iff_false]
        split_ifs <;> simp
      · simp only [hr, ne_eq, not_false_eq_true, if_true, he, hi, true_and]
        split_ifs <;> simp
  · intro hr he hi h1 h2
    rw [ServeFastHTTP_other env h ctx w he hi h1 h2]
    refine ⟨rfl, ?_, ?_⟩
    · simp only [reloadStep_calls, if_pos hr]
    · simp only [reloadStep_store, if_pos hr]
  · intro hinv
    rw [ServeFastHTTP_invalid env h ctx w hinv]
    exact ⟨rfl, rfl, rfl⟩

/-- C10, on `/abc.gif?reload=1` (404, yet `Reload` ran on `abc`) and on
`/abc?reload=1` and `/.png?reload=1` (404, no call). -/
theorem C10_reload_condition_witness :
    ((ServeFastHTTP testEnv (Server 240 80) (mkCtx "/abc.gif" "1" "") w0).1.resp.statusCode = 404 ∧
      (ServeFastHTTP testEnv (Server 240 80) (mkCtx "/abc.gif" "1" "") w0).2.calls =
        w0.calls ++ [Call.Reload (idOf (Split (mkCtx "/abc.gif" "1" "").path).2)] ∧
      (ServeFastHTTP testEnv (Server 240 80) (mkCtx "/abc.gif" "1" "") w0).2.store =
        testEnv.Reload (idOf (Split (mkCtx "/abc.gif" "1" "").path).2) w0.store) ∧
    idOf (Split (mkCtx "/abc.gif" "1" "").path).2 = ascii "abc" ∧
    ((ServeFastHTTP testEnv (Server 240 80) (mkCtx "/abc" "1" "") w0).1.resp.statusCode = 404 ∧
      (ServeFastHTTP testEnv (Server 240 80) (mkCtx "/abc" "1" "") w0).2.calls = w0.calls ∧
      (ServeFastHTTP testEnv (Server 240 80) (mkCtx "/abc" "1" "") w0).2.store = w0.store) ∧
    ((ServeFastHTTP testEnv (Server 240 80) (mkCtx "/.png" "1" "") w0).1.resp.statusCode = 404 ∧
      (ServeFastHTTP testEnv (Server 240 80) (mkCtx "/.png" "1" "") w0).2.calls = w0.calls ∧
      (ServeFastHTTP testEnv (Server 240 80) (mkCtx "/.png" "1" "") w0).2.store = w0.store) :=
  ⟨(C10_reload_condition testEnv (Server 240 80) (mkCtx "/abc.gif" "1" "") w0).2.1
      (by decide) (by decide) (by decide) (by decide) (by decide),
   by decide,
   (C10_reload_condition testEnv (Server 240 80) (mkCtx "/abc" "1" "") w0).2.2 (by decide),
   (C10_reload_condition testEnv (Server 240 80) (mkCtx "/.png" "1" "") w0).2.2 (by decide)⟩

end Captcha
